import Mathlib

/-!
Shallow embedding of the `arpy` module (arpy.py): a reader for Unix `ar`
archive files, with GNU and BSD extended filenames and the AIX big format.

Conventions of the embedding:
* Python byte strings are modelled as `List Nat` of byte values.  The AIX
  classes compare byte data against `str` constants; under the declared
  Python 3 runtime of the package (setup.py: python >= 3.5) a `bytes`
  value never equals a `str`, and `bytes.endswith(str)` raises
  `TypeError`, and the embedding reproduces both.
* Python `int` is modelled as `Int`; byte-field parsing via `pyInt` mirrors
  the semantics of the builtin `int()` on stripped ASCII decimal or octal
  fields (optional sign, at least one digit, surrounding whitespace allowed).
* The archive object's mutable state (underlying file, read position,
  seekable flag) is a `Cursor`; `Cursor.read`/`Cursor.seekTo` embed
  `Archive._read`/`Archive._seek`.  The underlying file object is modelled
  as an immutable byte list (the `io.BytesIO` case used by the test suite),
  so `file.read` with a negative length returns the whole rest.
* Python exceptions become `Except ArpyError` results; `ArpyError.valueError`
  stands for exceptions other than the two exception classes the module
  defines (uncaught `ValueError` / `struct.error` / `TypeError`).
-/

/-- Errors raised by the module: `ArchiveFormatError`, `ArchiveAccessError`,
plus a constructor for Python exceptions the module does not define itself. -/
inductive ArpyError where
  | format (msg : String)
  | access (msg : String)
  | valueError (msg : String)
  deriving DecidableEq, Repr

def ArpyError.isAccess : ArpyError → Bool
  | .access _ => true
  | _ => false

def ArpyError.isFormat : ArpyError → Bool
  | .format _ => true
  | _ => false

instance {ε α : Type} [DecidableEq ε] [DecidableEq α] : DecidableEq (Except ε α)
  | .error e, .error e' => decidable_of_iff (e = e') (by simp)
  | .error _, .ok _ => isFalse (by simp)
  | .ok _, .error _ => isFalse (by simp)
  | .ok a, .ok a' => decidable_of_iff (a = a') (by simp)

/-- ASCII bytes of a string literal (for concrete inputs). -/
def byteStr (s : String) : List Nat := s.data.map Char.toNat

/-- Header type constants from arpy.py. -/
def HEADER_BSD : Nat := 1
def HEADER_GNU : Nat := 2
def HEADER_GNU_TABLE : Nat := 3
def HEADER_GNU_SYMBOLS : Nat := 4
def HEADER_NORMAL : Nat := 5

def GLOBAL_HEADER_LEN : Nat := 8
def HEADER_LEN : Nat := 60

/-- Python `str.isspace` bytes: the whitespace stripped by `int()` and
`bytes.strip()` (tab, newline, vertical tab, form feed, carriage return,
space). -/
def pyIsSpace (b : Nat) : Bool := b == 32 || (9 ≤ b && b ≤ 13)

/-- `bytes.lstrip()` (whitespace). -/
def pyLstrip (l : List Nat) : List Nat := l.dropWhile pyIsSpace

/-- `bytes.rstrip()` (whitespace). -/
def pyRstrip (l : List Nat) : List Nat := (l.reverse.dropWhile pyIsSpace).reverse

/-- `bytes.strip()` (whitespace). -/
def pyStrip (l : List Nat) : List Nat := pyRstrip (pyLstrip l)

/-- `bytes.rstrip(c)` for a single byte `c`. -/
def pyRstripByte (c : Nat) (l : List Nat) : List Nat :=
  (l.reverse.dropWhile (· == c)).reverse

/-- Value of one ASCII digit byte, if within the base. -/
def digitValue (base b : Nat) : Option Nat :=
  if 48 ≤ b && b ≤ 57 && b - 48 < base then some (b - 48) else none

def parseNatDigitsAux (base : Nat) : List Nat → Nat → Option Nat
  | [], acc => some acc
  | b :: rest, acc =>
    match digitValue base b with
    | some d => parseNatDigitsAux base rest (acc * base + d)
    | none => none

/-- A non-empty run of digits in the given base. -/
def parseNatDigits (base : Nat) (l : List Nat) : Option Nat :=
  match l with
  | [] => none
  | _ => parseNatDigitsAux base l 0

/-- Python `int(field, base)` on an ASCII byte field: strip whitespace,
optional sign, non-empty digit run.  `none` models a raised `ValueError`. -/
def pyInt (base : Nat) (l : List Nat) : Option Int :=
  match pyStrip l with
  | 43 :: rest => (parseNatDigits base rest).map Int.ofNat
  | 45 :: rest => (parseNatDigits base rest).map (fun n => -(n : Int))
  | rest => (parseNatDigits base rest).map Int.ofNat

/-- Python slice `l[:k]` (a negative `k` counts from the end). -/
def pySliceTo (k : Int) (l : List Nat) : List Nat :=
  if k < 0 then l.take (l.length - (-k).toNat) else l.take k.toNat

/-- `Archive._pad2`: a 2-aligned offset. -/
def Archive.pad2 (num : Int) : Int :=
  if num % 2 = 0 then num else num + 1

/-- The underlying byte source together with the archive object's
`self.position` and `self.seekable` fields. -/
structure Cursor where
  data : List Nat
  position : Int
  seekable : Bool
  deriving DecidableEq, Repr

/-- `Archive._read`: read up to `length` bytes at the current position and
advance by the number of bytes actually obtained.  A negative length models
`file.read` with a negative argument (read to the end, `io.BytesIO`). -/
def Cursor.read (c : Cursor) (length : Int) : List Nat × Cursor :=
  let avail := c.data.drop c.position.toNat
  let chunk := if length < 0 then avail else avail.take length.toNat
  (chunk, { c with position := c.position + chunk.length })

/-- The emulation loop of `Archive._seek` for a non-seekable source: read
and discard chunks of at most 4096 bytes until the position reaches
`offset` or the input is exhausted. -/
def Cursor.seekLoop (c : Cursor) (offset : Int) : Cursor :=
  if h : c.position < offset then
    if h2 : ((c.read (min 4096 (offset - c.position))).1).length = 0 then
      (c.read (min 4096 (offset - c.position))).2
    else Cursor.seekLoop (c.read (min 4096 (offset - c.position))).2 offset
  else c
  termination_by (offset - c.position).toNat
  decreasing_by
    simp only [Cursor.read, List.length_take, List.length_drop] at h2 ⊢
    omega

/-- `Archive._seek`: direct positioning when seekable, else forward-only
emulation; a backward target on a non-seekable source raises
`ArchiveAccessError`. -/
def Cursor.seekTo (c : Cursor) (offset : Int) : Except ArpyError Cursor :=
  if c.seekable then .ok { c with position := offset }
  else if offset < c.position then
    .error (.access "cannot go back when reading archive from a stream")
  else .ok (c.seekLoop offset)

/-- `ArchiveFileHeader` after `__init__` (fields that Python only assigns on
some paths are `Option`). -/
structure ArchiveFileHeader where
  type : Nat
  size : Int
  timestamp : Option Int
  uid : Option Int
  gid : Option Int
  mode : Option Int
  offset : Int
  name : Option (List Nat)
  proxy_name : Option (List Nat)
  file_offset : Option Int
  deriving DecidableEq, Repr

/-- `ArchiveFileHeader.__init__`: unpack the 60-byte record
`name[16] mtime[12] uid[6] gid[6] mode[8] size[10] magic[2]`, check the
magic, classify the header type from the raw name, parse the numeric
fields (all decimal except octal `mode`; a failed parse raises
`ArchiveFormatError`), and strip the stored name. -/
def ArchiveFileHeader.init (header : List Nat) (offset : Int) :
    Except ArpyError ArchiveFileHeader :=
  if header.length ≠ 60 then .error (.valueError "struct.error in unpack") else
  let name0 := header.take 16
  let timestamp_f := (header.drop 16).take 12
  let uid_f := (header.drop 28).take 6
  let gid_f := (header.drop 34).take 6
  let mode_f := (header.drop 40).take 8
  let size_f := (header.drop 48).take 10
  let magic := header.drop 58
  if magic ≠ [96, 10] then .error (.format "file header magic does not match") else
  let t : Nat :=
    if [35, 49, 47].isPrefixOf name0 then HEADER_BSD
    else if [47, 47].isPrefixOf name0 then HEADER_GNU_TABLE
    else if pyStrip name0 = [47] then HEADER_GNU_SYMBOLS
    else if [47].isPrefixOf name0 then HEADER_GNU
    else HEADER_NORMAL
  match pyInt 10 size_f with
  | none => .error (.format "cannot convert file header fields to integers")
  | some sz =>
    let fields? : Option (Option Int × Option Int × Option Int × Option Int) :=
      if t = HEADER_NORMAL ∨ t = HEADER_BSD ∨ t = HEADER_GNU then
        match pyInt 10 timestamp_f, pyInt 10 uid_f, pyInt 10 gid_f, pyInt 8 mode_f with
        | some a, some b, some c, some d => some (some a, some b, some c, some d)
        | _, _, _, _ => none
      else some (none, none, none, none)
    match fields? with
    | none => .error (.format "cannot convert file header fields to integers")
    | some (ts, u, g, m) =>
      let name1 := pyRstrip name0
      let name2 := if name1.length > 1 then pyRstripByte 47 name1 else name1
      if t = HEADER_NORMAL then
        .ok { type := t, size := sz, timestamp := ts, uid := u, gid := g, mode := m,
              offset := offset, name := some name2, proxy_name := none,
              file_offset := some (offset + (HEADER_LEN : Int)) }
      else
        .ok { type := t, size := sz, timestamp := ts, uid := u, gid := g, mode := m,
              offset := offset, name := none, proxy_name := some name2,
              file_offset := none }

/-- The mutable state of one `Archive` object. -/
structure ArchiveState where
  cursor : Cursor
  next_header_offset : Int
  gnu_table : Option (List (Int × List Nat))
  headers : List ArchiveFileHeader
  archived_files : List (List Nat × ArchiveFileHeader)
  deriving DecidableEq, Repr

def Archive._read (st : ArchiveState) (length : Int) : List Nat × ArchiveState :=
  let r := st.cursor.read length
  (r.1, { st with cursor := r.2 })

def Archive._seek (st : ArchiveState) (offset : Int) : Except ArpyError ArchiveState :=
  (st.cursor.seekTo offset).map fun c => { st with cursor := c }

/-- `Archive.__init__` (with a byte source given, after `_detect_seekable`):
read the 8-byte global header and require it to equal the `ar` magic. -/
def Archive.init (data : List Nat) (seekable : Bool) :
    Except ArpyError ArchiveState :=
  let st0 : ArchiveState :=
    { cursor := { data := data, position := 0, seekable := seekable },
      next_header_offset := 0, gnu_table := none,
      headers := [], archived_files := [] }
  let r := Archive._read st0 (GLOBAL_HEADER_LEN : Int)
  if r.1 ≠ byteStr "!<arch>\n" then
    .error (.format "file is missing the global header")
  else
    .ok { r.2 with next_header_offset := (GLOBAL_HEADER_LEN : Int) }

/-- Split a byte string on one separator byte, Python `bytes.split(sep)`. -/
def splitOnByte (sep : Nat) : List Nat → List (List Nat)
  | [] => [[]]
  | b :: rest =>
    let r := splitOnByte sep rest
    if b = sep then [] :: r
    else
      match r with
      | [] => [[b]]
      | x :: xs => (b :: x) :: xs

/-- The loop body of `Archive.__read_gnu_table`: map each byte position at
which a filename starts (within the table member's content) to that
filename with its last byte (the trailing slash) removed. -/
def buildGnuTableAux : List (List Nat) → Int → List (Int × List Nat)
  | [], _ => []
  | f :: rest, position =>
    (position, pySliceTo (-1) f) :: buildGnuTableAux rest (position + f.length + 1)

def buildGnuTable (table_string : List Nat) : List (Int × List Nat) :=
  buildGnuTableAux (splitOnByte 10 table_string) 0

/-- First-match lookup, the behaviour of the Python dict `gnu_table`
(its keys, produced by `buildGnuTableAux`, are strictly increasing). -/
def tableLookup (position : Int) : List (Int × List Nat) → Option (List Nat)
  | [] => none
  | (p, nm) :: rest => if p = position then some nm else tableLookup position rest

/-- `Archive.__read_gnu_table`: read the table member's content and build
the filename table. -/
def Archive.read_gnu_table (st : ArchiveState) (size : Int) :
    Except ArpyError ArchiveState :=
  let r := Archive._read st size
  if (r.1.length : Int) ≠ size then
    .error (.format "file too short to fit the names table")
  else
    .ok { r.2 with gnu_table := some (buildGnuTable r.1) }

/-- `Archive.__get_bsd_filename_len`: decimal after the first 3 bytes
(after the `#1/` prefix); `none` models the uncaught `ValueError`. -/
def Archive.get_bsd_filename_len (name : List Nat) : Option Int :=
  pyInt 10 (name.drop 3)

/-- `Archive.__fix_name`: resolve the long filename; returns the updated
header, the `add_len` return value (inline-name bytes consumed) and the
updated archive state. -/
def Archive.fix_name (st : ArchiveState) (header : ArchiveFileHeader) :
    Except ArpyError (ArchiveFileHeader × Int × ArchiveState) :=
  if header.type = HEADER_NORMAL then
    .ok (header, 0, st)
  else if header.type = HEADER_BSD then
    match Archive.get_bsd_filename_len (header.proxy_name.getD []) with
    | none => .error (.valueError "invalid literal for int")
    | some filename_len =>
      match Archive._seek st (header.offset + (HEADER_LEN : Int)) with
      | .error e => .error e
      | .ok st =>
        let r := Archive._read st filename_len
        -- BSD format includes the filename in the file size, so it is
        -- subtracted from the declared size (in the source the subtraction
        -- happens just before the seek; the seek only uses the untouched
        -- `offset` field, so folding it into the result is equivalent)
        .ok ({ header with size := header.size - filename_len, name := some r.1 },
             filename_len, r.2)
  else if header.type = HEADER_GNU_TABLE then
    .ok ({ header with name := some (byteStr "*GNU_TABLE*") }, 0, st)
  else if header.type = HEADER_GNU then
    match pyInt 10 ((header.proxy_name.getD []).drop 1) with
    | none => .error (.valueError "invalid literal for int")
    | some gnu_position =>
      match st.gnu_table with
      | none => .error (.valueError "argument of type NoneType is not iterable")
      | some table =>
        match tableLookup gnu_position table with
        | none => .error (.format "file references a name not present in the index")
        | some nm => .ok ({ header with name := some nm }, 0, st)
  else
    .ok (header, 0, st)

/-- `Archive._read_file_header`: seek to `offset`, read and decode one
60-byte header, consume a GNU name table when one is found, resolve the
name, set `file_offset`, and advance `next_header_offset` when this read
happened at the position the reader expected next. -/
def Archive._read_file_header (st : ArchiveState) (offset : Int) :
    Except ArpyError (Option ArchiveFileHeader × ArchiveState) :=
  match Archive._seek st offset with
  | .error e => .error e
  | .ok st =>
    let r := Archive._read st (HEADER_LEN : Int)
    let header := r.1
    let st := r.2
    if header.length = 0 then .ok (none, st)
    else if header.length < HEADER_LEN then .error (.format "file header too short")
    else
      match ArchiveFileHeader.init header offset with
      | .error e => .error e
      | .ok file_header =>
        match (if file_header.type = HEADER_GNU_TABLE
               then Archive.read_gnu_table st file_header.size
               else .ok st) with
        | .error e => .error e
        | .ok st =>
          match Archive.fix_name st file_header with
          | .error e => .error e
          | .ok (file_header, add_len, st) =>
            let fo : Int := offset + (HEADER_LEN : Int) + add_len
            let file_header := { file_header with file_offset := some fo }
            let st :=
              if offset = st.next_header_offset then
                { st with next_header_offset := Archive.pad2 (fo + file_header.size) }
              else st
            .ok (some file_header, st)

/-- `Archive.read_next_header`: read one header at the tracked offset,
record it, and register data-bearing kinds in `archived_files`. -/
def Archive.read_next_header (st : ArchiveState) :
    Except ArpyError (Option ArchiveFileHeader × ArchiveState) :=
  match Archive._read_file_header st st.next_header_offset with
  | .error e => .error e
  | .ok (none, st) => .ok (none, st)
  | .ok (some header, st) =>
    let st := { st with headers := st.headers ++ [header] }
    let st :=
      if header.type = HEADER_BSD ∨ header.type = HEADER_NORMAL ∨
          header.type = HEADER_GNU then
        { st with archived_files := (header.name.getD [], header) :: st.archived_files }
      else st
    .ok (some header, st)

/-- Iterating `read_next_header` a given number of times, collecting the
headers produced (stops early at the end marker). -/
def Archive.readHeaders (st : ArchiveState) : Nat → Except ArpyError (List ArchiveFileHeader × ArchiveState)
  | 0 => .ok ([], st)
  | n + 1 =>
    match Archive.read_next_header st with
    | .error e => .error e
    | .ok (none, st) => .ok ([], st)
    | .ok (some h, st) =>
      match Archive.readHeaders st n with
      | .error e => .error e
      | .ok (hs, st) => .ok (h :: hs, st)

/-- An `ArchiveFileData` view: its header and its own `last_offset`.
The shared archive cursor is passed explicitly to `read`. -/
structure ArchiveFileData where
  header : ArchiveFileHeader
  last_offset : Int
  deriving DecidableEq, Repr

/-- `ArchiveFileData.tell`. -/
def ArchiveFileData.tell (fd : ArchiveFileData) : Int := fd.last_offset

/-- `ArchiveFileData.seek`: returns the view state after the call together
with the raised error, if any (the body assigns `self.last_offset` only on
its final line, so a raise leaves the view unchanged). -/
def ArchiveFileData.seek (fd : ArchiveFileData) (offset : Int) (whence : Int) :
    ArchiveFileData × Option ArpyError :=
  let target? : Except ArpyError Int :=
    if whence = 0 then .ok offset
    else if whence = 1 then .ok (offset + fd.last_offset)
    else if whence = 2 then .ok (offset + fd.header.size)
    else .error (.access "invalid argument")
  match target? with
  | .error e => (fd, some e)
  | .ok offset =>
    if offset < 0 ∨ offset > fd.header.size then
      (fd, some (.access "incorrect file position"))
    else
      ({ fd with last_offset := offset }, none)

/-- `ArchiveFileData.read`: clamp the requested size to the declared range,
seek the shared cursor to `file_offset + last_offset`, read, and require
the full clamped size to come back. -/
def ArchiveFileData.read (fd : ArchiveFileData) (ar : ArchiveState)
    (size? : Option Int) : Except ArpyError (List Nat × ArchiveFileData × ArchiveState) :=
  let size := size?.getD fd.header.size
  let size := if fd.header.size < fd.last_offset + size
              then fd.header.size - fd.last_offset else size
  match fd.header.file_offset with
  | none => .error (.valueError "unsupported operand type NoneType")
  | some fo =>
    match Archive._seek ar (fo + fd.last_offset) with
    | .error e => .error e
    | .ok ar =>
      let r := Archive._read ar size
      if (r.1.length : Int) < size then .error (.access "incorrect archive file")
      else .ok (r.1, { fd with last_offset := fd.last_offset + size }, r.2)

/-- `AIXBigGlobalHeader`: the six decimal offsets after the 8-byte magic. -/
structure AIXBigGlobalHeader where
  members : Int
  global_symbol : Int
  global_symbol_64 : Int
  first_member : Int
  last_member : Int
  first_free_member : Int
  deriving DecidableEq, Repr

def AIXBigGlobalHeader.LENGTH : Nat := 128

/-- `AIXBigGlobalHeader.__init__` as it runs under the declared Python 3
runtime: `_checkValidType` first checks the length, then compares
`self._content[:8]` (bytes) against the class attribute
`AIAMAGBIG = '<bigaf>\n'`, which is a `str`.  In Python 3 a `bytes` value
is never equal to a `str`, so the inequality check fires on every input
that reaches it and the constructor always raises
`ArchiveFormatError("this is not an AIX big format archive")`; the
`struct.unpack` and the six decimal-field parses below it are dead code. -/
def AIXBigGlobalHeader.init (content : List Nat) :
    Except ArpyError AIXBigGlobalHeader :=
  if content.length < AIXBigGlobalHeader.LENGTH then
    .error (.format "file to short for AIX big format")
  else
    .error (.format "this is not an AIX big format archive")

/-- `AIXBigFileHeader` after parsing; `name` is filled in by
`updateRemainingHeader`. -/
structure AIXBigFileHeader where
  size : Int
  next_member : Int
  previous_member : Int
  timestamp : Int
  uid : Int
  gid : Int
  mode : Int
  filename_length : Int
  header_offset : Int
  name : Option (List Nat)
  deriving DecidableEq, Repr

def AIXBigFileHeader.MINIMUM_LENGTH : Nat := 112

/-- Every `AIXBigFileHeader` has the class attribute `type = HEADER_NORMAL`. -/
def AIXBigFileHeader.type (_ : AIXBigFileHeader) : Nat := HEADER_NORMAL

/-- `AIXBigFileHeader.__init__`: length check, unpack
`20s 20s 20s 12s 12s 12s 12s 4s`, parse the numeric fields (decimal except
octal `mode`; these `int()` calls are not wrapped, so a bad field raises a
plain `ValueError`). -/
def AIXBigFileHeader.init (content : List Nat) (offset : Int) :
    Except ArpyError AIXBigFileHeader :=
  if content.length < AIXBigFileHeader.MINIMUM_LENGTH then
    .error (.format "file header too short")
  else if content.length ≠ 112 then
    .error (.format "bad format for file header")
  else
    match pyInt 10 (content.take 20),
          pyInt 10 ((content.drop 20).take 20),
          pyInt 10 ((content.drop 40).take 20),
          pyInt 10 ((content.drop 60).take 12),
          pyInt 10 ((content.drop 72).take 12),
          pyInt 10 ((content.drop 84).take 12),
          pyInt 8 ((content.drop 96).take 12),
          pyInt 10 ((content.drop 108).take 4) with
    | some sz, some nxt, some prv, some ts, some u, some g, some m, some fl =>
      .ok { size := sz, next_member := nxt, previous_member := prv,
            timestamp := ts, uid := u, gid := g, mode := m,
            filename_length := fl, header_offset := offset, name := none }
    | _, _, _, _, _, _, _, _ => .error (.valueError "invalid literal for int")

/-- `AIXBigFileHeader.remaining_header_length`: filename plus the 2-byte
trailer magic, padded to an even length. -/
def AIXBigFileHeader.remaining_header_length (h : AIXBigFileHeader) : Int :=
  Archive.pad2 (h.filename_length + 2)

/-- `AIXBigFileHeader.relative_file_offset`. -/
def AIXBigFileHeader.relative_file_offset (h : AIXBigFileHeader) : Int :=
  (AIXBigFileHeader.MINIMUM_LENGTH : Int) + h.remaining_header_length

/-- `AIXBigFileHeader.file_offset`. -/
def AIXBigFileHeader.file_offset (h : AIXBigFileHeader) : Int :=
  h.header_offset + h.relative_file_offset

/-- `AIXBigFileHeader.updateRemainingHeader` as it runs under the declared
Python 3 runtime: after the length check it evaluates
`content.endswith(self.AIAFMAG)` where `content` is `bytes` but the class
attribute `AIAFMAG` is the `str` constant made of a backtick and a
newline; `bytes.endswith(str)` raises `TypeError` in Python 3, so the call
never reaches the trailer-magic error nor the name assignment. -/
def AIXBigFileHeader.updateRemainingHeader (h : AIXBigFileHeader)
    (content : List Nat) : Except ArpyError AIXBigFileHeader :=
  if (content.length : Int) < h.remaining_header_length then
    .error (.format "file header end too short")
  else
    .error (.valueError "endswith first arg must be bytes, not str")

/-- The mutable state of one `AIXBigArchive` object. -/
structure AIXState where
  cursor : Cursor
  global_header : AIXBigGlobalHeader
  next_header_offset : Int
  headers : List AIXBigFileHeader
  archived_files : List (List Nat × AIXBigFileHeader)
  deriving DecidableEq, Repr

/-- `AIXBigArchive.__init__`: parse the 128-byte global header and start
traversal at `first_member`. -/
def AIXBigArchive.init (data : List Nat) (seekable : Bool) :
    Except ArpyError AIXState :=
  let c0 : Cursor := { data := data, position := 0, seekable := seekable }
  let r := c0.read (AIXBigGlobalHeader.LENGTH : Int)
  match AIXBigGlobalHeader.init r.1 with
  | .error e => .error e
  | .ok gh =>
    .ok { cursor := r.2, global_header := gh,
          next_header_offset := gh.first_member,
          headers := [], archived_files := [] }

/-- `AIXBigArchive._read_file_header`: offset `0` is the list end; otherwise
read the 112-byte fixed part and the variable trailer, and, when reading at
the tracked next-offset, set the next-offset to `0` when this header's own
offset equals the global header's `last_member` and to the header's
`next_member` otherwise. -/
def AIXBigArchive._read_file_header (st : AIXState) (offset : Int) :
    Except ArpyError (Option AIXBigFileHeader × AIXState) :=
  -- We are already at the last member.
  if offset = 0 then .ok (none, st)
  else
    match st.cursor.seekTo offset with
    | .error e => .error e
    | .ok c =>
      let r := c.read (AIXBigFileHeader.MINIMUM_LENGTH : Int)
      if r.1.length = 0 then .ok (none, { st with cursor := r.2 })
      else
        match AIXBigFileHeader.init r.1 offset with
        | .error e => .error e
        | .ok file_header =>
          let r2 := r.2.read file_header.remaining_header_length
          match file_header.updateRemainingHeader r2.1 with
          | .error e => .error e
          | .ok file_header =>
            let st := { st with cursor := r2.2 }
            let st :=
              if offset = st.next_header_offset then
                if offset = st.global_header.last_member then
                  { st with next_header_offset := 0 }
                else
                  { st with next_header_offset := file_header.next_member }
              else st
            .ok (some file_header, st)

/-- The inherited `Archive.read_next_header` as it runs on an
`AIXBigArchive` (`AIXBigFileHeader.type` is always `HEADER_NORMAL`, so
every returned header is registered). -/
def AIXBigArchive.read_next_header (st : AIXState) :
    Except ArpyError (Option AIXBigFileHeader × AIXState) :=
  match AIXBigArchive._read_file_header st st.next_header_offset with
  | .error e => .error e
  | .ok (none, st) => .ok (none, st)
  | .ok (some header, st) =>
    let st := { st with headers := st.headers ++ [header] }
    let st := { st with archived_files := (header.name.getD [], header) :: st.archived_files }
    .ok (some header, st)

/-! ## Concrete inputs for witnesses and counterexamples -/

/-- Pad an ASCII field to a fixed width with spaces, as `ar` writes it. -/
def padTo (w : Nat) (s : List Nat) : List Nat := s ++ List.replicate (w - s.length) 32

/-- Build one standard 60-byte member header from its ASCII fields. -/
def mkHeader (name ts uid gid mode size : String) : List Nat :=
  padTo 16 (byteStr name) ++ padTo 12 (byteStr ts) ++ padTo 6 (byteStr uid) ++
  padTo 6 (byteStr gid) ++ padTo 8 (byteStr mode) ++ padTo 10 (byteStr size) ++ [96, 10]

/-- The header size of a returned header, when one was returned. -/
def headerSizeOf (r : Except ArpyError (Option ArchiveFileHeader × ArchiveState)) :
    Option Int :=
  match r with
  | .ok (some h, _) => some h.size
  | _ => none

/-- A small standard archive: global magic, one plain member of 15 bytes. -/
def normalArchiveBytes : List Nat :=
  byteStr "!<arch>\n" ++ mkHeader "file1/" "1364071329" "1000" "100" "100644" "15" ++
  byteStr "test_in_file_1\n"

/-- The same member bytes behind the thin-archive magic. -/
def thinArchiveBytes : List Nat :=
  byteStr "!<thin>\n" ++ mkHeader "file1/" "1364071329" "1000" "100" "100644" "15"

/-- A 60-byte header with blank `uid` and `gid` fields, as produced by
Windows tools (test_normal.py, `test_windows`). -/
def windowsHeaderBytes : List Nat :=
  mkHeader "file1/" "1364071329" "" "" "100644" "15"

/-- A malformed BSD archive: inline name of 20 bytes but a declared size
field of only 5. -/
def bsdShortSizeArchive : List Nat :=
  byteStr "!<arch>\n" ++ mkHeader "#1/20" "1297730011" "1000" "1000" "100644" "5" ++
  byteStr "aaaaaaaaaaaaaaaaaaab" ++ byteStr "hello"

/-- The archive state right after a successful `Archive.__init__` on
`bsdShortSizeArchive`. -/
def bsdShortSizeState : ArchiveState :=
  { cursor := { data := bsdShortSizeArchive, position := 8, seekable := true },
    next_header_offset := 8, gnu_table := none, headers := [], archived_files := [] }

/-! ## C1: accepted global headers -/

/-- C1: the spec says opening succeeds for both the standard magic
`!<arch>\n` and the thin-archive magic `!<thin>\n`, and the repository's
thin-archive tests (test/thin/test_thin.py) rely on that; but
`Archive.__init__` compares the 8 read bytes against `!<arch>\n` only, so a
thin archive is rejected with `ArchiveFormatError`. -/
theorem claim_C1 :
    Archive.init thinArchiveBytes true =
      .error (.format "file is missing the global header") ∧
    (Archive.init normalArchiveBytes true).isOk = true := by
  constructor <;> decide

/-! ## C8: blank uid/gid fields -/

/-- C8: the spec (and test_normal.py, `test_windows`) says a blank
`uid`/`gid` field parses to an absent value, but `ArchiveFileHeader.__init__`
passes the blank field straight to `int()`, so decoding such a header
raises `ArchiveFormatError` instead. -/
theorem claim_C8 :
    ArchiveFileHeader.init windowsHeaderBytes 8 =
      .error (.format "cannot convert file header fields to integers") := by
  decide

/-! ## C9: sizes after name resolution -/

/-- C9 counterexample: decoding `bsdShortSizeArchive` succeeds and yields a
header whose stored size is `5 - 20 = -15`, so the stored size of a decoded
header is not always non-negative. -/
theorem claim_C9_counterexample :
    headerSizeOf (Archive.read_next_header bsdShortSizeState) = some (-15) ∧
    ¬ (0 ≤ (-15 : Int)) := by
  constructor
  · decide
  · decide

/-! ## C6 and C10: member view seek semantics -/

/-- The target position a `seek(offset, whence)` call refers to, for the
three recognized `whence` values. -/
def seekTarget (fd : ArchiveFileData) (offset whence : Int) : Int :=
  if whence = 0 then offset
  else if whence = 1 then offset + fd.last_offset
  else offset + fd.header.size

/-- Closed-form description of `ArchiveFileData.seek`: `whence` 0/1/2 give
an absolute / position-relative / size-relative target; any other `whence`
raises `ArchiveAccessError`, a target outside `[0, size]` raises
`ArchiveAccessError`, and otherwise the read offset becomes the target. -/
theorem seek_spec (fd : ArchiveFileData) (offset whence : Int) :
    fd.seek offset whence =
      (if whence = 0 ∨ whence = 1 ∨ whence = 2 then
        (if seekTarget fd offset whence < 0 ∨
            seekTarget fd offset whence > fd.header.size
         then (fd, some (ArpyError.access "incorrect file position"))
         else ({ fd with last_offset := seekTarget fd offset whence }, none))
      else (fd, some (ArpyError.access "invalid argument"))) := by
  by_cases h0 : whence = 0
  · subst h0; simp [ArchiveFileData.seek, seekTarget]
  · by_cases h1 : whence = 1
    · subst h1; simp [ArchiveFileData.seek, seekTarget]
    · by_cases h2 : whence = 2
      · subst h2; simp [ArchiveFileData.seek, seekTarget]
      · simp [ArchiveFileData.seek, seekTarget, h0, h1, h2]

/-- C6: `seek(offset, whence)` treats `whence` 0/1/2 as absolute, relative
to the current offset, and relative to the declared size; it raises
`ArchiveAccessError` exactly when `whence` is invalid or the target lies
outside `[0, declared size]`, and otherwise the read offset becomes the
target. -/
theorem claim_C6 (fd : ArchiveFileData) (offset whence : Int) :
    fd.seek offset whence =
      (if whence = 0 ∨ whence = 1 ∨ whence = 2 then
        (if seekTarget fd offset whence < 0 ∨
            seekTarget fd offset whence > fd.header.size
         then (fd, some (ArpyError.access "incorrect file position"))
         else ({ fd with last_offset := seekTarget fd offset whence }, none))
      else (fd, some (ArpyError.access "invalid argument"))) :=
  seek_spec fd offset whence

/-- C10: whenever `seek` raises, the view read offset is unchanged:
`tell()` after the failed call equals `tell()` before it. -/
theorem claim_C10 (fd : ArchiveFileData) (offset whence : Int) (e : ArpyError)
    (herr : (fd.seek offset whence).2 = some e) :
    ((fd.seek offset whence).1).tell = fd.tell := by
  by_cases hw : whence = 0 ∨ whence = 1 ∨ whence = 2
  · by_cases hbad : seekTarget fd offset whence < 0 ∨
        seekTarget fd offset whence > fd.header.size
    · rw [seek_spec, if_pos hw, if_pos hbad]
    · rw [seek_spec, if_pos hw, if_neg hbad] at herr
      exact absurd herr (by simp)
  · rw [seek_spec, if_neg hw]

/-- C9 (amended): after name resolution the stored size equals the declared
size minus the inline-name bytes consumed, so it is non-negative whenever
the declared size is at least the inline-name length (for non-BSD headers:
whenever the declared size is non-negative); nothing in the code enforces
this for malformed archives (see the counterexample). -/
theorem claim_C9 (st : ArchiveState) (h h2 : ArchiveFileHeader) (al : Int) (st2 : ArchiveState)
    (hfix : Archive.fix_name st h = .ok (h2, al, st2))
    (hle : 0 ≤ h.size - al) : 0 ≤ h2.size := by
  unfold Archive.fix_name at hfix
  split at hfix
  · cases hfix; omega
  · split at hfix
    · -- HEADER_BSD
      split at hfix
      · cases hfix
      · split at hfix
        · cases hfix
        · rw [Except.ok.injEq, Prod.mk.injEq, Prod.mk.injEq] at hfix
          obtain ⟨hh, hal, hst⟩ := hfix
          subst hal
          rw [← hh]
          exact hle
    · split at hfix
      · -- HEADER_GNU_TABLE
        cases hfix
        exact (by omega : (0 : Int) ≤ h.size)
      · split at hfix
        · -- HEADER_GNU
          split at hfix
          · cases hfix
          · split at hfix
            · cases hfix
            · split at hfix
              · cases hfix
              · cases hfix
                exact (by omega : (0 : Int) ≤ h.size)
        · cases hfix; omega

/-! ## C2 and C3: extended name resolution -/

/-- The header and consumed inline-name length produced by a successful
`fix_name` call (the final archive state is projected away). -/
def fixNameResult (r : Except ArpyError (ArchiveFileHeader × Int × ArchiveState)) :
    Option (ArchiveFileHeader × Int) :=
  r.toOption.map fun p => (p.1, p.2.1)

/-- C2: for a BSD header (raw name `#1/` followed by a decimal number L),
name resolution reads exactly L bytes immediately after the fixed 60-byte
header as the member name, and the stored size becomes the declared size
field minus L. -/
theorem claim_C2 (st : ArchiveState) (h : ArchiveFileHeader) (pn : List Nat) (L o : Int)
    (htype : h.type = HEADER_BSD)
    (hpn : h.proxy_name = some pn)
    (hpre : [35, 49, 47].isPrefixOf pn = true)
    (hlen : Archive.get_bsd_filename_len pn = some L)
    (hoff : h.offset = o)
    (hseek : st.cursor.seekable = true)
    (ho : 0 ≤ o) (hL : 0 ≤ L)
    (hdata : (o + 60 + L).toNat ≤ st.cursor.data.length) :
    fixNameResult (Archive.fix_name st h) =
      some ({ h with
                size := h.size - L,
                name := some ((st.cursor.data.drop (o + 60).toNat).take L.toNat) }, L)
      ∧ ((st.cursor.data.drop (o + 60).toNat).take L.toNat).length = L.toNat := by
  subst hoff
  constructor
  · simp only [Archive.fix_name, htype, hpn, Option.getD_some]
    norm_num [HEADER_BSD, HEADER_NORMAL]
    rw [hlen]
    simp only [Archive._seek, Cursor.seekTo, hseek, if_true, Except.map]
    simp only [Archive._read, Cursor.read]
    rw [if_neg (by omega : ¬ L < 0)]
    simp [fixNameResult, HEADER_LEN]
    exact ⟨_, rfl⟩
  · simp only [List.length_take, List.length_drop]
    omega

/-- C3: a GnuExtendedName header (raw name `/` + decimal offset) resolved
against a built long-name table gets the table entry at that offset (the
entry was stored with its trailing slash stripped by `buildGnuTable`); an
offset absent from the table is a fatal `ArchiveFormatError`. -/
theorem claim_C3 (st : ArchiveState) (h : ArchiveFileHeader) (pn T : List Nat) (pos : Int)
    (htype : h.type = HEADER_GNU)
    (hpn : h.proxy_name = some pn)
    (hpos : pyInt 10 (pn.drop 1) = some pos)
    (htbl : st.gnu_table = some (buildGnuTable T)) :
    (∀ nm, tableLookup pos (buildGnuTable T) = some nm →
       Archive.fix_name st h = .ok ({ h with name := some nm }, 0, st)) ∧
    (tableLookup pos (buildGnuTable T) = none →
       Archive.fix_name st h = .error
         (.format "file references a name not present in the index")) := by
  have hpos2 : pyInt 10 pn.tail = some pos := by
    rw [← List.drop_one]; exact hpos
  constructor
  · intro nm hnm
    unfold Archive.fix_name
    rw [htype]
    norm_num [HEADER_GNU, HEADER_NORMAL, HEADER_BSD, HEADER_GNU_TABLE, hpn]
    split
    · rename_i heq; rw [hpos2] at heq; cases heq
    · rename_i g heq; rw [hpos2] at heq; injection heq with heq; subst heq
      split
      · rename_i heq2; rw [htbl] at heq2; cases heq2
      · rename_i tbl heq2; rw [htbl] at heq2; injection heq2 with heq2; subst heq2
        split
        · rename_i heq3; rw [hnm] at heq3; cases heq3
        · rename_i nm2 heq3; rw [hnm] at heq3; injection heq3 with heq3; subst heq3; rfl
  · intro hnone
    unfold Archive.fix_name
    rw [htype]
    norm_num [HEADER_GNU, HEADER_NORMAL, HEADER_BSD, HEADER_GNU_TABLE, hpn]
    split
    · rename_i heq; rw [hpos2] at heq; cases heq
    · rename_i g heq; rw [hpos2] at heq; injection heq with heq; subst heq
      split
      · rename_i heq2; rw [htbl] at heq2; cases heq2
      · rename_i tbl heq2; rw [htbl] at heq2; injection heq2 with heq2; subst heq2
        split
        · rfl
        · rename_i nm2 heq3; rw [hnone] at heq3; cases heq3

/-! ## Witness inputs -/

/-- A well-formed BSD archive: raw name `#1/20`, declared size 25, 20
inline name bytes, then 5 content bytes. -/
def bsdArchiveBytes : List Nat :=
  byteStr "!<arch>\n" ++ mkHeader "#1/20" "1297730011" "1000" "1000" "100644" "25" ++
  byteStr "aaaaaaaaaaaaaaaaaaab" ++ byteStr "hello"

def c2st : ArchiveState :=
  { cursor := { data := bsdArchiveBytes, position := 68, seekable := true },
    next_header_offset := 8, gnu_table := none, headers := [], archived_files := [] }

/-- The header `ArchiveFileHeader.__init__` produces for the BSD header of
`bsdArchiveBytes` (before name fixing). -/
def c2hdr : ArchiveFileHeader :=
  { type := HEADER_BSD, size := 25, timestamp := some 1297730011,
    uid := some 1000, gid := some 1000, mode := some 33188, offset := 8,
    name := none, proxy_name := some (byteStr "#1/20"), file_offset := none }

theorem claim_C2_witness :
    fixNameResult (Archive.fix_name c2st c2hdr) =
      some ({ c2hdr with
                size := c2hdr.size - 20,
                name := some ((c2st.cursor.data.drop ((8 : Int) + 60).toNat).take (20 : Int).toNat) }, 20)
    ∧ ((c2st.cursor.data.drop ((8 : Int) + 60).toNat).take (20 : Int).toNat).length = (20 : Int).toNat :=
  claim_C2 c2st c2hdr (byteStr "#1/20") 20 8 (by decide) (by decide) (by decide)
    (by decide) (by decide) (by decide) (by decide) (by decide) (by decide)

def c3st : ArchiveState :=
  { cursor := { data := [], position := 0, seekable := true },
    next_header_offset := 80, gnu_table := some (buildGnuTable (byteStr "libfoo.o/\n")),
    headers := [], archived_files := [] }

/-- A GnuExtendedName header with raw name `/0`. -/
def c3hdr : ArchiveFileHeader :=
  { type := HEADER_GNU, size := 4, timestamp := some 1297730011,
    uid := some 1000, gid := some 1000, mode := some 33188, offset := 80,
    name := none, proxy_name := some (byteStr "/0"), file_offset := none }

theorem claim_C3_witness :
    tableLookup 0 (buildGnuTable (byteStr "libfoo.o/\n")) = some (byteStr "libfoo.o") ∧
    Archive.fix_name c3st c3hdr = .ok ({ c3hdr with name := some (byteStr "libfoo.o") }, 0, c3st) :=
  ⟨by decide,
   (claim_C3 c3st c3hdr (byteStr "/0") (byteStr "libfoo.o/\n") 0 (by decide) (by decide)
      (by decide) (by decide)).1 (byteStr "libfoo.o") (by decide)⟩

/-- A plain normal header used to instantiate C9. -/
def c9whdr : ArchiveFileHeader :=
  { type := HEADER_NORMAL, size := 15, timestamp := some 0, uid := some 0,
    gid := some 0, mode := some 0, offset := 8,
    name := some (byteStr "file1"), proxy_name := none, file_offset := some 68 }

def c9wst : ArchiveState :=
  { cursor := { data := [], position := 0, seekable := true },
    next_header_offset := 8, gnu_table := none, headers := [], archived_files := [] }

theorem claim_C9_witness :
    Archive.fix_name c9wst c9whdr = .ok (c9whdr, 0, c9wst) ∧
    0 ≤ c9whdr.size - 0 ∧ 0 ≤ c9whdr.size :=
  ⟨by decide, by decide, claim_C9 c9wst c9whdr c9whdr 0 c9wst (by decide) (by decide)⟩

/-- A view of 3 bytes into a 15-byte member, for the C10 witness. -/
def c10wfd : ArchiveFileData := { header := c9whdr, last_offset := 3 }

theorem claim_C10_witness :
    (c10wfd.seek 99 0).2 = some (ArpyError.access "incorrect file position") ∧
    ((c10wfd.seek 99 0).1).tell = c10wfd.tell :=
  ⟨by decide, claim_C10 c10wfd 99 0 (ArpyError.access "incorrect file position") (by decide)⟩

/-! ## C4: AIX linked traversal -/

/-- `updateRemainingHeader` never returns successfully under Python 3:
both branches raise. -/
theorem updateRemainingHeader_ne_ok (h : AIXBigFileHeader) (content : List Nat)
    (fh : AIXBigFileHeader) : h.updateRemainingHeader content ≠ .ok fh := by
  unfold AIXBigFileHeader.updateRemainingHeader
  split <;> simp

/-- True when a `_read_file_header` call did not produce a member header. -/
def aixNoHeader (r : Except ArpyError (Option AIXBigFileHeader × AIXState)) : Bool :=
  match r with
  | .ok (some _, _) => false
  | _ => true

def padTo20 (s : String) : List Nat := padTo 20 (byteStr s)
def padTo12 (s : String) : List Nat := padTo 12 (byteStr s)

/-- A well-formed one-member AIX big archive whose only member (at offset
128) is also the `last_member` of the global header. -/
def aixArchiveBytes : List Nat :=
  byteStr "<bigaf>\n" ++ padTo20 "0" ++ padTo20 "0" ++ padTo20 "0" ++
  padTo20 "128" ++ padTo20 "128" ++ padTo20 "0" ++
  padTo20 "2" ++ padTo20 "0" ++ padTo20 "0" ++ padTo12 "0" ++ padTo12 "0" ++
  padTo12 "0" ++ padTo12 "0" ++ padTo 4 (byteStr "2") ++ byteStr "ab" ++ byteStr "`\n" ++
  byteStr "XY"

set_option maxRecDepth 4000 in
/-- C4: the advancing behaviour the claim describes is unreachable under
the declared Python 3 runtime.  Opening even a well-formed AIX big archive
fails at the bytes-vs-str magic comparison in
`AIXBigGlobalHeader._checkValidType`, and no `_read_file_header` call can
ever return a member header, because `updateRemainingHeader` raises
(`bytes.endswith(str)` is a `TypeError`) before the next-offset update is
reached; the AIX tests of the repository (test_aix_big.py) assert the
traversal the claim describes but are themselves Python-2-only (their
first line imports `cStringIO`). -/
theorem claim_C4 :
    AIXBigArchive.init aixArchiveBytes true =
      .error (.format "this is not an AIX big format archive") ∧
    (∀ (st : AIXState) (o : Int),
       aixNoHeader (AIXBigArchive._read_file_header st o) = true) := by
  constructor
  · decide
  · intro st o
    unfold AIXBigArchive._read_file_header
    split
    · rfl
    · split
      · rfl
      · dsimp only
        split
        · rfl
        · split
          · rfl
          · split
            · rfl
            · rename_i fh2 heq
              exact absurd heq (updateRemainingHeader_ne_ok _ _ _)

/-! ## C7: non-seekable sources -/

theorem seekLoop_invariant (c : Cursor) (offset : Int) :
    (c.seekLoop offset).data = c.data ∧ (c.seekLoop offset).seekable = c.seekable ∧
    c.position ≤ (c.seekLoop offset).position := by
  induction c, offset using Cursor.seekLoop.induct with
  | case1 c offset h r =>
    rw [Cursor.seekLoop, dif_pos h, dif_pos r]
    simp [Cursor.read]
  | case2 c offset h r ih =>
    rw [Cursor.seekLoop, dif_pos h, dif_neg r]
    refine ⟨ih.1.trans ?_, ih.2.1.trans ?_, le_trans ?_ ih.2.2⟩ <;> simp [Cursor.read]
  | case3 c offset h =>
    rw [Cursor.seekLoop, dif_neg h]
    exact ⟨rfl, rfl, le_refl _⟩

theorem Cursor.read_length (c : Cursor) (n : Int) (hn : 0 ≤ n) :
    (c.read n).1.length = min n.toNat (c.data.length - c.position.toNat) := by
  simp only [Cursor.read]
  rw [if_neg (show ¬ n < 0 from by omega)]
  simp [List.length_take, List.length_drop]

theorem Cursor.read_position (c : Cursor) (n : Int) :
    (c.read n).2.position = c.position + (c.read n).1.length := rfl

theorem Cursor.read_data (c : Cursor) (n : Int) : (c.read n).2.data = c.data := rfl

theorem Cursor.read_seekable (c : Cursor) (n : Int) :
    (c.read n).2.seekable = c.seekable := rfl

theorem seekLoop_reaches (c : Cursor) (offset : Int)
    (h0 : 0 ≤ c.position) (h1 : c.position ≤ offset) (h2 : offset ≤ c.data.length) :
    (c.seekLoop offset).position = offset := by
  induction c, offset using Cursor.seekLoop.induct with
  | case1 c offset h r =>
    exfalso
    rw [Cursor.read_length c (min 4096 (offset - c.position)) (by omega)] at r
    omega
  | case2 c offset h r ih =>
    rw [Cursor.seekLoop, dif_pos h, dif_neg r]
    have e1 := Cursor.read_length c (min 4096 (offset - c.position)) (by omega)
    have e2 := Cursor.read_position c (min 4096 (offset - c.position))
    have e3 := Cursor.read_data c (min 4096 (offset - c.position))
    apply ih
    · rw [e2]; omega
    · rw [e2]; omega
    · rw [e3]; exact h2
  | case3 c offset h =>
    rw [Cursor.seekLoop, dif_neg h]
    omega

def readResultLen (r : Except ArpyError (List Nat × ArchiveFileData × ArchiveState)) :
    Option Nat :=
  r.toOption.map fun p => p.1.length

/-- C7: on a non-seekable source a backward seek raises
`ArchiveAccessError`, a forward seek succeeds by reading and discarding
(the position never decreases), and a member lying wholly ahead of the
current position can still be read in full. -/
theorem claim_C7 :
    (∀ (c : Cursor) (offset : Int), c.seekable = false → offset < c.position →
       c.seekTo offset = .error (.access "cannot go back when reading archive from a stream")) ∧
    (∀ (c : Cursor) (offset : Int), c.seekable = false → c.position ≤ offset →
       c.seekTo offset = .ok (c.seekLoop offset) ∧
       c.position ≤ (c.seekLoop offset).position ∧
       (c.seekLoop offset).data = c.data ∧ (c.seekLoop offset).seekable = false) ∧
    (∀ (ar : ArchiveState) (fd : ArchiveFileData) (f s : Int),
       ar.cursor.seekable = false →
       fd.header.file_offset = some f → fd.last_offset = 0 → fd.header.size = s →
       0 ≤ s → 0 ≤ ar.cursor.position → ar.cursor.position ≤ f →
       (f + s).toNat ≤ ar.cursor.data.length →
       readResultLen (fd.read ar none) = some s.toNat) := by
  refine ⟨?_, ?_, ?_⟩
  · intro c offset hseek hlt
    simp [Cursor.seekTo, hseek, hlt]
  · intro c offset hseek hle
    have inv := seekLoop_invariant c offset
    refine ⟨?_, inv.2.2, inv.1, ?_⟩
    · simp [Cursor.seekTo, hseek, (show ¬ offset < c.position from by omega)]
    · rw [inv.2.1, hseek]
  · intro ar fd f s hseek hfo hlast hsize hs hpos hposf hdata
    have hfle : (f : Int) ≤ ar.cursor.data.length := by omega
    have hreach := seekLoop_reaches ar.cursor (f + fd.last_offset)
      hpos (by omega) (by omega)
    have hloopdata := (seekLoop_invariant ar.cursor (f + fd.last_offset)).1
    unfold ArchiveFileData.read
    rw [hfo]
    simp only [Option.getD_none]
    rw [if_neg (show ¬ fd.header.size < fd.last_offset + fd.header.size from by omega)]
    unfold Archive._seek
    unfold Cursor.seekTo
    rw [hseek]
    simp only [Bool.false_eq_true, if_false]
    rw [if_neg (show ¬ f + fd.last_offset < ar.cursor.position from by omega)]
    simp only [Except.map]
    unfold Archive._read
    have hchunk : ((ar.cursor.seekLoop (f + fd.last_offset)).read fd.header.size).1.length
        = fd.header.size.toNat := by
      rw [Cursor.read_length _ _ (by omega), hreach, hloopdata]
      omega
    rw [if_neg (show ¬ ((((ar.cursor.seekLoop (f + fd.last_offset)).read
      fd.header.size).1.length : Nat) : Int) < fd.header.size from by rw [hchunk]; omega)]
    simp only [readResultLen, Except.toOption, Option.map]
    rw [hchunk, hsize]

/-- A non-seekable cursor part-way into a 10-byte source. -/
def c7c : Cursor := { data := byteStr "0123456789", position := 4, seekable := false }

/-- `normalArchiveBytes` behind a non-seekable cursor, positioned right
after the member header. -/
def c7ar : ArchiveState :=
  { cursor := { data := normalArchiveBytes, position := 68, seekable := false },
    next_header_offset := 84, gnu_table := none, headers := [], archived_files := [] }

theorem claim_C7_witness :
    c7c.seekTo 2 = .error (.access "cannot go back when reading archive from a stream") ∧
    (c7c.seekTo 7 = .ok (c7c.seekLoop 7) ∧ c7c.position ≤ (c7c.seekLoop 7).position ∧
      (c7c.seekLoop 7).data = c7c.data ∧ (c7c.seekLoop 7).seekable = false) ∧
    readResultLen (ArchiveFileData.read ⟨c9whdr, 0⟩ c7ar none) = some (15 : Int).toNat :=
  ⟨claim_C7.1 c7c 2 rfl (by decide),
   claim_C7.2.1 c7c 7 rfl (by decide),
   claim_C7.2.2 c7ar ⟨c9whdr, 0⟩ 68 15 rfl (by decide) rfl (by decide) (by decide)
     (by decide) (by decide) (by decide)⟩

/-! ## C5: sequential header offsets -/

/-- A successfully decoded header records the offset it was read at. -/
theorem init_offset (b : List Nat) (o : Int) (h : ArchiveFileHeader)
    (hinit : ArchiveFileHeader.init b o = .ok h) : h.offset = o := by
  simp only [ArchiveFileHeader.init] at hinit
  repeat' split at hinit
  all_goals cases hinit
  all_goals rfl

/-- Decides that the 60 bytes at offset `o` of `data` decode to a plain
normal header of size `s` (with `o` and `s` in range). -/
def normalAtB (data : List Nat) (o s : Int) : Bool :=
  decide (0 ≤ o) && decide (o.toNat + 60 ≤ data.length) && decide (0 ≤ s) &&
  (match ArchiveFileHeader.init ((data.drop o.toNat).take 60) o with
   | .ok h => h.type == HEADER_NORMAL && h.size == s
   | .error _ => false)

/-- The offset recurrence stated by the specification: the first header
sits at `start`, and each next offset is
`pad2 (previous + 60 + previous size)`. -/
def spec_offsets (start : Int) : List Int → List Int
  | [] => []
  | s :: rest => start :: spec_offsets (Archive.pad2 (start + 60 + s)) rest

/-- One step of sequential reading: a normal header of size `s` decoded at
the tracked offset `o` is returned with offset `o`, and the tracked offset
advances to `pad2 (o + 60 + s)`. -/
theorem read_next_normal_step (st : ArchiveState) (o s : Int)
    (hseek : st.cursor.seekable = true)
    (hoff : st.next_header_offset = o)
    (hN : normalAtB st.cursor.data o s = true) :
    ∃ h st2, Archive.read_next_header st = .ok (some h, st2) ∧
      h.offset = o ∧
      st2.next_header_offset = Archive.pad2 (o + 60 + s) ∧
      st2.cursor.data = st.cursor.data ∧ st2.cursor.seekable = true := by
  simp only [normalAtB, Bool.and_eq_true, decide_eq_true_eq] at hN
  obtain ⟨⟨⟨ho, hlen⟩, hs⟩, hm⟩ := hN
  rcases hinit : ArchiveFileHeader.init ((st.cursor.data.drop o.toNat).take 60) o with e | h
  · rw [hinit] at hm; simp at hm
  · rw [hinit] at hm
    simp only [Bool.and_eq_true, beq_iff_eq] at hm
    obtain ⟨htype, hsize⟩ := hm
    have hchunk2 : ((st.cursor.data.drop o.toNat).take 60).length = 60 := by
      simp only [List.length_take, List.length_drop]
      omega
    unfold Archive.read_next_header Archive._read_file_header
    rw [hoff]
    simp only [Archive._seek, Cursor.seekTo, hseek, if_true, Except.map,
      Archive._read, Cursor.read, HEADER_LEN]
    rw [if_neg (show ¬((60:Nat):Int) < 0 from by omega)]
    simp only [show Int.toNat ((60:Nat):Int) = 60 from rfl]
    rw [hchunk2]
    norm_num
    rw [hinit]
    dsimp only
    simp only [Archive.fix_name, htype]
    norm_num [HEADER_NORMAL, HEADER_GNU_TABLE, HEADER_BSD, HEADER_GNU]
    simp only [htype, HEADER_NORMAL, hoff]
    norm_num
    refine ⟨_, _, ⟨rfl, rfl⟩, ?_, ?_, rfl, rfl⟩
    · exact init_offset _ o h hinit
    · simp only [hsize]

/-- C5: a fresh archive starts reading at offset 8 (right after the global
header), and for any sequence of plain normal members with given sizes laid
out at the offsets of the specification recurrence
`offset_i = pad2 (offset_(i-1) + 60 + size_(i-1))`, sequential reading
returns headers at exactly those offsets. -/
theorem claim_C5 :
    (∀ (data : List Nat) (seekable : Bool) (st : ArchiveState),
       Archive.init data seekable = .ok st → st.next_header_offset = 8) ∧
    (∀ (sizes : List Int) (st : ArchiveState) (o : Int),
       st.cursor.seekable = true →
       st.next_header_offset = o →
       ((spec_offsets o sizes).zip sizes).all
         (fun p => normalAtB st.cursor.data p.1 p.2) = true →
       ∃ hs st2, Archive.readHeaders st sizes.length = .ok (hs, st2) ∧
         hs.map (fun h => h.offset) = spec_offsets o sizes) := by
  constructor
  · intro data seekable st hinit
    simp only [Archive.init] at hinit
    split at hinit
    · cases hinit
    · cases hinit; rfl
  · intro sizes
    induction sizes with
    | nil =>
      intro st o _ _ _
      exact ⟨[], st, rfl, rfl⟩
    | cons s rest ih =>
      intro st o hseek hoff hall
      simp only [spec_offsets, List.zip_cons_cons, List.all_cons, Bool.and_eq_true] at hall
      obtain ⟨h1, h2⟩ := hall
      obtain ⟨h, st2, heq, hoff2, hnext2, hdata2, hseek2⟩ :=
        read_next_normal_step st o s hseek hoff h1
      obtain ⟨hs, st3, heq3, hmap⟩ :=
        ih st2 (Archive.pad2 (o + 60 + s)) hseek2 hnext2 (by rw [hdata2]; exact h2)
      refine ⟨h :: hs, st3, ?_, ?_⟩
      · simp only [List.length_cons, Archive.readHeaders]
        rw [heq]
        dsimp only
        rw [heq3]
      · simp only [List.map_cons, hoff2, hmap, spec_offsets]

def c5archive : List Nat :=
  byteStr "!<arch>\n" ++ mkHeader "file1/" "1364071329" "1000" "100" "100644" "15" ++
  byteStr "test_in_file_1\n" ++ byteStr "\n" ++
  mkHeader "file2/" "1364071329" "1000" "100" "100644" "7" ++
  byteStr "content"

def c5st : ArchiveState :=
  { cursor := { data := c5archive, position := 8, seekable := true },
    next_header_offset := 8, gnu_table := none, headers := [], archived_files := [] }


set_option maxRecDepth 8000 in
theorem claim_C5_witness :
    c5st.next_header_offset = 8 ∧
    (Archive.readHeaders c5st ([15, 7] : List Int).length).toOption.map
        (fun p => p.1.map (fun h => h.offset)) = some (spec_offsets 8 [15, 7]) ∧
    spec_offsets 8 [15, 7] = [8, 84] := by
  refine ⟨claim_C5.1 c5archive true c5st (by decide), ?_, by decide⟩
  obtain ⟨hs, st2, heq, hmap⟩ := claim_C5.2 [15, 7] c5st 8 rfl rfl (by decide)
  rw [heq]
  simp only [Except.toOption, Option.map]
  rw [hmap]
